import Mathlib

/-!
# Port2Monad — verification of the structural-analysis and pipeline engine

Shallow embedding, translated from the TypeScript source of the repository:

* `src/analysis/solidityAnalyzer.ts` — contract extraction, dependency graph,
  entry-point inference;
* `src/server/http.ts` — staged pipeline caches (tree / analysis / plan /
  transform) with their TTL and concurrency behaviour;
* the migration planner (`planMigration` / `generateRecommendations`) and the
  transformer agent (`transformRepository`, `calculateConfidenceScore`,
  `validateCrossFileConsistency`, `resolveImport`).

External collaborators (the tree-sitter parser, the GitHub client, the
language-model calls and JavaScript's built-in `JSON.parse`) are modelled as
parameters: the embedding receives their outputs and reproduces, step by step,
what the repository's own code does with them.  JavaScript numbers are
modelled as `ℚ` (`Math.round x = ⌊x + 1/2⌋`), timestamps as `ℕ` milliseconds.
-/

namespace Port2Monad

/-! ## Structural model (`src/types/index.ts`) -/

/-- `ContractType` from `types/index.ts`:
`'contract' | 'abstract' | 'interface' | 'library'`. -/
inductive ContractType where
  | contract
  | abstract
  | interface
  | library
deriving DecidableEq, Repr

/-- Function visibility, from `SolidityFunction.visibility`. -/
inductive Visibility where
  | public
  | external
  | internal
  | private_
deriving DecidableEq, Repr

/-- Optional state mutability, from `SolidityFunction.stateMutability`. -/
inductive StateMutability where
  | pure_
  | view
  | payable
deriving DecidableEq, Repr

/-- `SolidityFunction` from `types/index.ts` (parameters and returns are the
placeholder strings the analyzer itself synthesizes). -/
structure SolidityFunction where
  name : String
  visibility : Visibility
  stateMutability : Option StateMutability
  parameters : List String
  returns : List String
deriving DecidableEq, Repr

/-- State-variable visibility (`'public' | 'internal' | 'private'`). -/
inductive VarVisibility where
  | public
  | internal
  | private_
deriving DecidableEq, Repr

/-- `StateVariable` from `types/index.ts`. -/
structure StateVariable where
  name : String
  type : String
  visibility : VarVisibility
  constant : Bool
  immutable : Bool
deriving DecidableEq, Repr

/-- `SolidityContract` from `types/index.ts`. -/
structure SolidityContract where
  name : String
  type : ContractType
  filePath : String
  imports : List String
  inherits : List String
  functions : List SolidityFunction
  stateVariables : List StateVariable
  usesUpgradeablePattern : Bool
deriving DecidableEq, Repr

/-- Edge kind of `DependencyEdge.type`: `'import' | 'inheritance'`. -/
inductive EdgeType where
  | import_
  | inheritance
deriving DecidableEq, Repr

/-- `DependencyEdge` from `types/index.ts`; the TS fields `from`/`to` are
spelled `from_`/`to_` here (both are Lean keywords). -/
structure DependencyEdge where
  from_ : String
  to_ : String
  type : EdgeType
deriving DecidableEq, Repr

/-- `DependencyGraph` from `types/index.ts`. -/
structure DependencyGraph where
  nodes : List String
  edges : List DependencyEdge
deriving DecidableEq, Repr

/-! ## Dependency Graph Builder (`solidityAnalyzer.ts`, `buildDependencyGraph`)

The TS code keeps `nodes`/`edges` arrays; nodes are pushed only after an
`!nodes.includes(...)` check, edges are pushed unconditionally. -/

/-- `if (!nodes.includes(n)) nodes.push(n)` -/
def addNode (nodes : List String) (n : String) : List String :=
  if n ∈ nodes then nodes else nodes ++ [n]

/-- The body of the two inner `for` loops of `buildDependencyGraph`: for each
target in `targets`, add the target as a node if absent and push one edge
`{from, to, type}` unconditionally. -/
def addTargets (from_ : String) (kind : EdgeType) :
    List String → List DependencyEdge → List String →
    List String × List DependencyEdge
  | nodes, edges, [] => (nodes, edges)
  | nodes, edges, t :: ts =>
      addTargets from_ kind (addNode nodes t) (edges ++ [⟨from_, t, kind⟩]) ts

/-- The outer `for (const contract of contracts)` loop of
`buildDependencyGraph`. -/
def buildFrom : List String → List DependencyEdge → List SolidityContract →
    DependencyGraph
  | nodes, edges, [] => ⟨nodes, edges⟩
  | nodes, edges, c :: rest =>
      let nodes1 := addNode nodes c.name
      let (nodes2, edges2) := addTargets c.name .import_ nodes1 edges c.imports
      let (nodes3, edges3) := addTargets c.name .inheritance nodes2 edges2 c.inherits
      buildFrom nodes3 edges3 rest

/-- `buildDependencyGraph` from `solidityAnalyzer.ts` lines 379–415. -/
def buildDependencyGraph (contracts : List SolidityContract) : DependencyGraph :=
  buildFrom [] [] contracts

/-! ## Entry-point inference (`solidityAnalyzer.ts` lines 417–440) -/

/-- `isOnlyInherited` from `solidityAnalyzer.ts`: some inheritance edge targets
the name, and no inheritance edge originates from it. -/
def isOnlyInherited (contractName : String) (graph : DependencyGraph) : Bool :=
  let isInherited :=
    graph.edges.any fun e => e.to_ == contractName && e.type == EdgeType.inheritance
  let isInheriting :=
    graph.edges.any fun e => e.from_ == contractName && e.type == EdgeType.inheritance
  isInherited && !isInheriting

/-- `identifyEntryPoints` from `solidityAnalyzer.ts`: concrete contracts that
are not only-inherited, in list order, mapped to their names. -/
def identifyEntryPoints (contracts : List SolidityContract)
    (graph : DependencyGraph) : List String :=
  (contracts.filter fun c =>
    c.type == ContractType.contract && !(isOnlyInherited c.name graph)).map
    (fun c => c.name)

/-- The composition performed by `analyzeSolidity` (lines 74–77): build the
graph from the extracted contracts, then infer entry points against it. -/
def analysisEntryPoints (contracts : List SolidityContract) : List String :=
  identifyEntryPoints contracts (buildDependencyGraph contracts)

/-- Spec-side reading of "some inheritance edge targets `n`". -/
def hasInheritanceEdgeInto (g : DependencyGraph) (n : String) : Prop :=
  ∃ e ∈ g.edges, e.to_ = n ∧ e.type = EdgeType.inheritance

/-- Spec-side reading of "some inheritance edge originates from `n`". -/
def hasInheritanceEdgeFrom (g : DependencyGraph) (n : String) : Prop :=
  ∃ e ∈ g.edges, e.from_ = n ∧ e.type = EdgeType.inheritance

instance (g : DependencyGraph) (n : String) :
    Decidable (hasInheritanceEdgeInto g n) := by
  unfold hasInheritanceEdgeInto; infer_instance

instance (g : DependencyGraph) (n : String) :
    Decidable (hasInheritanceEdgeFrom g n) := by
  unfold hasInheritanceEdgeFrom; infer_instance

/-- A one-file scenario contract `contract Token {}` (no inheritance). -/
def tokenContract : SolidityContract :=
  { name := "Token", type := .contract, filePath := "Token.sol",
    imports := [], inherits := [], functions := [], stateVariables := [],
    usesUpgradeablePattern := false }

/-- A one-file scenario contract `contract Sale is Token {}`. -/
def saleContract : SolidityContract :=
  { name := "Sale", type := .contract, filePath := "Token.sol",
    imports := [], inherits := ["Token"], functions := [], stateVariables := [],
    usesUpgradeablePattern := false }

/-! ## Contract Extractor (`solidityAnalyzer.ts`, `parseFile` and helpers)

The tree-sitter parser is the external collaborator: it hands `parseFile` a
syntax tree.  `SNode` models such a tree; `text` stands for
`sourceCode.slice(node.startIndex, node.endIndex)` — every place the TS code
slices the source at a node's span, the model reads the node's `text`. -/

/-- A parsed syntax-tree node: grammar category (`node.type` in tree-sitter),
source text of its span, named fields (`childForFieldName`), and the child
list walked by `findNodesByType`. -/
inductive SNode where
  | node (nodeType : String) (text : String)
      (fields : List (String × SNode)) (children : List SNode)

def SNode.nodeType : SNode → String
  | .node t _ _ _ => t

def SNode.text : SNode → String
  | .node _ tx _ _ => tx

def SNode.fields : SNode → List (String × SNode)
  | .node _ _ fs _ => fs

def SNode.children : SNode → List SNode
  | .node _ _ _ cs => cs

/-- `node.childForFieldName(name)`. -/
def childForFieldName (n : SNode) (f : String) : Option SNode :=
  (n.fields.find? fun p => p.1 == f).map (fun p => p.2)

mutual
/-- `findNodesByType` from `solidityAnalyzer.ts` lines 352–364: preorder
collection of all nodes whose grammar category is in `types`. -/
def findNodesByType : SNode → List String → List SNode
  | SNode.node t tx fs cs, types =>
      (if t ∈ types then [SNode.node t tx fs cs] else []) ++
        findNodesByTypeList cs types

/-- The `for (const child of node.children)` loop of `findNodesByType`. -/
def findNodesByTypeList : List SNode → List String → List SNode
  | [], _ => []
  | c :: cs, types => findNodesByType c types ++ findNodesByTypeList cs types
end

/-- `findNodeByType` from `solidityAnalyzer.ts` lines 366–377 returns the
first node of the given category in preorder, which is the head of the
`findNodesByType` collection. -/
def findNodeByType (n : SNode) (t : String) : Option SNode :=
  (findNodesByType n [t]).head?

/-- First match of the regex `/["']([^"']+)["']/`: a quote character, then a
non-empty run of non-quote characters, then a quote; earlier start positions
are tried first. -/
def firstQuotedAux : List Char → Option String
  | [] => none
  | c :: rest =>
      if c == '"' || c == '\'' then
        let cap := rest.takeWhile fun d => !(d == '"' || d == '\'')
        if cap.length > 0 && (rest.drop cap.length).length > 0 then
          some (String.mk cap)
        else firstQuotedAux rest
      else firstQuotedAux rest

def firstQuoted (s : String) : Option String :=
  firstQuotedAux s.toList

/-- `extractImports` from `solidityAnalyzer.ts` lines 159–173: for every
`import_directive` node, the first quoted literal of its text is pushed;
directives without one are skipped.  No de-duplication is performed. -/
def extractImports (rootNode : SNode) : List String :=
  (findNodesByType rootNode ["import_directive"]).filterMap
    fun n => firstQuoted n.text

/-- The push guarded by `if (inhName && !inherits.includes(inhName))`. -/
def pushIfNewNonempty (acc : List String) (n : String) : List String :=
  if n ≠ "" ∧ n ∉ acc then acc ++ [n] else acc

/-- The inheritance-collection loop of `extractContract`: keep non-empty names
not seen before, in first-occurrence order. -/
def dedupNames (names : List String) : List String :=
  names.foldl pushIfNewNonempty []

/-- `pre` is a prefix of `s` (on character lists, so that concrete inputs
evaluate by `rfl`). -/
def listIsPrefix : List Char → List Char → Bool
  | [], _ => true
  | _ :: _, [] => false
  | a :: as, b :: bs => a == b && listIsPrefix as bs

/-- Substring occurrence on character lists. -/
def listContainsSub (pat : List Char) : List Char → Bool
  | [] => pat.isEmpty
  | c :: cs => listIsPrefix pat (c :: cs) || listContainsSub pat cs

/-- JavaScript's `String.prototype.includes` (substring containment). -/
def jsIncludes (s pat : String) : Bool :=
  listContainsSub pat.toList s.toList

/-- JavaScript's `String.prototype.startsWith`. -/
def jsStartsWith (s pre : String) : Bool :=
  listIsPrefix pre.toList s.toList

/-- JavaScript's `String.prototype.trim` (strip whitespace on both ends). -/
def jsTrim (s : String) : String :=
  String.mk
    (((s.toList.dropWhile Char.isWhitespace).reverse.dropWhile
        Char.isWhitespace).reverse)

/-- `UPGRADEABLE_PATTERNS` from `solidityAnalyzer.ts` lines 23–30. -/
def UPGRADEABLE_PATTERNS : List String :=
  ["Initializable", "UUPSUpgradeable", "TransparentUpgradeableProxy",
   "BeaconProxy", "initialize(", "upgradeTo("]

/-- One iteration of the `extractFunctions` loop (`solidityAnalyzer.ts` lines
240–307); `none` models `continue` (missing name, or resolved visibility that
is internal/private — such functions are dropped from the model). -/
def extractFunction (node : SNode) : Option SolidityFunction :=
  match childForFieldName node "name" with
  | none => none
  | some nameNode =>
      let visibility : Visibility :=
        match findNodeByType node "visibility" with
        | some vn =>
            if vn.text == "external" then .external
            else if vn.text == "internal" then .internal
            else if vn.text == "private" then .private_
            else .public
        | none => .public
      if visibility ≠ .public ∧ visibility ≠ .external then none
      else
        let stateMutability : Option StateMutability :=
          match findNodeByType node "state_mutability" with
          | some mn =>
              if mn.text == "pure" then some .pure_
              else if mn.text == "view" then some .view
              else if mn.text == "payable" then some .payable
              else none
          | none => none
        let parameters : List String :=
          match childForFieldName node "parameters" with
          | some pn =>
              let commaCount := pn.text.toList.count ','
              let extra := if (jsTrim pn.text).length > 2 then 1 else 0
              (List.range (commaCount + extra)).map fun i => s!"param{i}"
          | none => []
        let returns : List String :=
          match childForFieldName node "return_parameters" with
          | some _ => ["returnValue"]
          | none => []
        some ⟨nameNode.text, visibility, stateMutability, parameters, returns⟩

/-- `extractFunctions` from `solidityAnalyzer.ts`. -/
def extractFunctions (contractNode : SNode) : List SolidityFunction :=
  (findNodesByType contractNode ["function_definition"]).filterMap
    extractFunction

/-- One iteration of the `extractStateVariables` loop (`solidityAnalyzer.ts`
lines 309–350). -/
def extractStateVariable (node : SNode) : Option StateVariable :=
  match findNodeByType node "identifier" with
  | none => none
  | some nameNode =>
      let typeText :=
        match (findNodeByType node "type_name" <|>
               findNodeByType node "user_defined_type" <|>
               findNodeByType node "elementary_type_name") with
        | some tn => tn.text
        | none => "unknown"
      let varText := node.text
      let visibility : VarVisibility :=
        if jsIncludes varText " public " then .public
        else if jsIncludes varText " private " then .private_
        else .internal
      some ⟨nameNode.text, typeText, visibility,
            jsIncludes varText " constant ", jsIncludes varText " immutable "⟩

/-- `extractStateVariables` from `solidityAnalyzer.ts`. -/
def extractStateVariables (contractNode : SNode) : List StateVariable :=
  (findNodesByType contractNode ["state_variable_declaration"]).filterMap
    extractStateVariable

/-- `extractContract` from `solidityAnalyzer.ts` lines 175–238.  The whole
file's import list is attached verbatim to every contract; inheritance
names are de-duplicated; a declaration without a name yields `none`. -/
def extractContract (node : SNode) (filePath : String)
    (fileImports : List String) : Option SolidityContract :=
  let type : ContractType :=
    if node.nodeType == "interface_declaration" then .interface
    else if node.nodeType == "library_declaration" then .library
    else if jsStartsWith node.text "abstract " then .abstract
    else .contract
  match childForFieldName node "name" with
  | none => none
  | some nameNode =>
      let inherits : List String :=
        match childForFieldName node "inheritance" with
        | some inhNode =>
            dedupNames
              ((findNodesByType inhNode ["identifier", "user_defined_type"]).map
                SNode.text)
        | none => []
      some { name := nameNode.text, type := type, filePath := filePath,
             imports := fileImports, inherits := inherits,
             functions := extractFunctions node,
             stateVariables := extractStateVariables node,
             usesUpgradeablePattern :=
               UPGRADEABLE_PATTERNS.any fun p => jsIncludes node.text p }

/-- The per-file pipeline of `parseFile` (`solidityAnalyzer.ts` lines
120–157) after the external parser produced the tree: extract the paths the
file imports, find all declaration nodes, extract a contract from each. -/
def parseFileContracts (root : SNode) (filePath : String) :
    List SolidityContract :=
  let imports := extractImports root
  (findNodesByType root
      ["contract_declaration", "interface_declaration", "library_declaration"]).filterMap
    fun n => extractContract n filePath imports

/-- An `import "./A.sol";` directive node. -/
def dupImportDirective : SNode :=
  .node "import_directive" "import \"./A.sol\";" [] []

/-- The name identifier of the scenario declaration `contract Token`. -/
def tokenNameNode : SNode :=
  .node "identifier" "Token" [] []

/-- A `contract Token` declaration node (no inheritance clause). -/
def tokenDeclNode : SNode :=
  .node "contract_declaration" "contract Token" [("name", tokenNameNode)]
    [tokenNameNode]

/-- A source file that imports `./A.sol` twice and declares `contract Token`. -/
def dupImportRoot : SNode :=
  .node "source_file" "" []
    [dupImportDirective, dupImportDirective, tokenDeclNode]

/-- The `ContractUnit` the extractor produces for `dupImportRoot`: the file's
(unde-duplicated) import list is attached to the contract. -/
def tokenExtracted : SolidityContract :=
  { name := "Token", type := .contract, filePath := "Token.sol",
    imports := ["./A.sol", "./A.sol"], inherits := [], functions := [],
    stateVariables := [], usesUpgradeablePattern := false }

/-- The edges `buildDependencyGraph` emits for one contract, in program
order: one import edge per `imports` entry, then one inheritance edge per
`inherits` entry. -/
def edgesOfContract (c : SolidityContract) : List DependencyEdge :=
  (c.imports.map fun t => ⟨c.name, t, .import_⟩) ++
    (c.inherits.map fun t => ⟨c.name, t, .inheritance⟩)

/-! ## Migration plan model (`types/index.ts`, planning section) -/

/-- `MigrationRecommendation.changeCategory`. -/
inductive ChangeCategory where
  | gasOptimization
  | monadFeature
  | evmCompatibility
  | performance
  | architecture
  | securityConsideration
deriving DecidableEq, Repr

/-- `ConfidenceLevel = 'low' | 'medium' | 'high'`. -/
inductive ConfidenceLevel where
  | low
  | medium
  | high
deriving DecidableEq, Repr

/-- `MigrationRecommendation` from `types/index.ts` (the optional
`affectedContracts`/`references` fields are never consulted by the code under
verification and are omitted). -/
structure MigrationRecommendation where
  filePath : String
  contractName : String
  changeCategory : ChangeCategory
  recommendedChange : String
  rationale : String
  confidenceLevel : ConfidenceLevel
deriving DecidableEq, Repr

/-- `MigrationPlan` from `types/index.ts`, restricted to the fields the
verified paths read or mutate (`summary` counters and the timestamp strings
are derived display data). -/
structure MigrationPlan where
  repositoryName : String
  recommendations : List MigrationRecommendation
  assumptions : List String
  limitations : List String
  nextSteps : List String
deriving DecidableEq, Repr

/-! ## Pipeline caches (`src/server/http.ts`)

`repoCache : Map<string, RepositoryTree>` carries no timestamp;
`analysisCache` and `planCache` entries carry one.  Collaborator result
types are parameters (`T` tree, `A` analysis, `M` metadata, `P` plan). -/

/-- `CACHE_TTL_MS = 30 * 60 * 1000` (`http.ts` line 47). -/
def CACHE_TTL_MS : Nat := 30 * 60 * 1000

/-- `MAX_RECOMMENDATIONS = 200` (`http.ts` line 342). -/
def MAX_RECOMMENDATIONS : Nat := 200

/-- The limitation string pushed when the recommendation list is truncated
(`http.ts` lines 345–347). -/
def truncationNote : String :=
  s!"Recommendations truncated to first {MAX_RECOMMENDATIONS} items for response size limits"

/-- The truncation step of `handlePlanMigrationRequest` (`http.ts` lines
341–348), applied to the plan before it is cached and returned. -/
def truncatePlan (plan : MigrationPlan) : MigrationPlan :=
  if plan.recommendations.length > MAX_RECOMMENDATIONS then
    { plan with
      recommendations := plan.recommendations.take MAX_RECOMMENDATIONS,
      limitations := plan.limitations ++ [truncationNote] }
  else plan

/-- An `analysisCache` entry (`http.ts` lines 33–38). -/
structure AnalysisCacheEntry (A M : Type) where
  analysisResult : A
  repoMetadata : M
  timestamp : Nat
deriving DecidableEq, Repr

/-- A `planCache` entry (`http.ts` lines 41–45). -/
structure PlanCacheEntry (P : Type) where
  plan : P
  timestamp : Nat
deriving DecidableEq, Repr

/-- The three module-level `Map`s of `http.ts` (lines 30, 38, 45). -/
structure CacheState (T A M P : Type) where
  repoCache : List (String × T)
  analysisCache : List (String × AnalysisCacheEntry A M)
  planCache : List (String × PlanCacheEntry P)
deriving DecidableEq, Repr

/-- `Map.prototype.get`: value of the (unique) binding of `k`. -/
def mapGet {α : Type} : List (String × α) → String → Option α
  | [], _ => none
  | p :: rest, k => if p.1 == k then some p.2 else mapGet rest k

/-- `Map.prototype.set`: replace the binding of `k` in place, else append. -/
def mapSet {α : Type} : List (String × α) → String → α → List (String × α)
  | [], k, v => [(k, v)]
  | p :: rest, k, v =>
      if p.1 == k then (k, v) :: rest else p :: mapSet rest k v

/-- Tree stage of `handleTransformRequest` (`http.ts` lines 406–413): no
timestamp is consulted — a cached tree is served regardless of its age.
Returns (tree, whether `ingestRepository` was invoked, new state). -/
def treeStep {T A M P : Type} (key : String) (ingestVal : T)
    (st : CacheState T A M P) : T × Bool × CacheState T A M P :=
  match mapGet st.repoCache key with
  | some t => (t, false, st)
  | none =>
      (ingestVal, true, { st with repoCache := mapSet st.repoCache key ingestVal })

/-- Analysis stage of `handleTransformRequest` (`http.ts` lines 415–428):
recompute iff the entry is absent or older than `CACHE_TTL_MS`. -/
def analysisStep {T A M P : Type} (key : String) (now : Nat)
    (analyze : T → A) (meta : T → M) (tree : T) (st : CacheState T A M P) :
    AnalysisCacheEntry A M × Bool × CacheState T A M P :=
  match mapGet st.analysisCache key with
  | some e =>
      if now - e.timestamp > CACHE_TTL_MS then
        let e2 : AnalysisCacheEntry A M := ⟨analyze tree, meta tree, now⟩
        (e2, true, { st with analysisCache := mapSet st.analysisCache key e2 })
      else (e, false, st)
  | none =>
      let e2 : AnalysisCacheEntry A M := ⟨analyze tree, meta tree, now⟩
      (e2, true, { st with analysisCache := mapSet st.analysisCache key e2 })

/-- Plan stage of `handleTransformRequest` (`http.ts` lines 430–443):
recompute iff absent or older than `CACHE_TTL_MS`; the plan is derived from
whatever analysis entry the previous stage settled on. -/
def planStep {T A M P : Type} (key : String) (now : Nat)
    (planFn : M → A → P) (entry : AnalysisCacheEntry A M)
    (st : CacheState T A M P) : PlanCacheEntry P × Bool × CacheState T A M P :=
  match mapGet st.planCache key with
  | some pe =>
      if now - pe.timestamp > CACHE_TTL_MS then
        let pe2 : PlanCacheEntry P := ⟨planFn entry.repoMetadata entry.analysisResult, now⟩
        (pe2, true, { st with planCache := mapSet st.planCache key pe2 })
      else (pe, false, st)
  | none =>
      let pe2 : PlanCacheEntry P := ⟨planFn entry.repoMetadata entry.analysisResult, now⟩
      (pe2, true, { st with planCache := mapSet st.planCache key pe2 })

/-- Result of one `handleTransformRequest` pass: final cache state, the
transformation report, and which collaborators ran. -/
structure TransformFlowResult (T A M P R : Type) where
  state : CacheState T A M P
  report : R
  ranIngest : Bool
  ranAnalyze : Bool
  ranPlan : Bool
deriving Repr

/-- `handleTransformRequest` (`http.ts` lines 406–461) after the cache key is
resolved, run to completion with no interleaving: tree stage (no TTL),
analysis stage (TTL), plan stage (TTL), then `transformRepository` — whose
result is never cached.  The external collaborators are parameters:
`ingestVal` is the tree `ingestRepository` would produce, `analyze` stands
for `analyzeSolidityRepository`, `meta` reads `tree.metadata`, `planFn` for
`planRepositoryMigration`, `transformFn` for `transformRepository`. -/
def transformFlow {T A M P R : Type} (key : String) (now : Nat)
    (ingestVal : T) (analyze : T → A) (meta : T → M)
    (planFn : M → A → P) (transformFn : P → A → T → R)
    (st : CacheState T A M P) : TransformFlowResult T A M P R :=
  let tr := treeStep key ingestVal st
  let an := analysisStep key now analyze meta tr.1 tr.2.2
  let pl := planStep key now planFn an.1 an.2.2
  { state := pl.2.2,
    report := transformFn pl.1.plan an.1.analysisResult tr.1,
    ranIngest := tr.2.1, ranAnalyze := an.2.1, ranPlan := pl.2.1 }

/-- Spec-side staleness test for the analysis entry of `key`: absent, or aged
past the TTL at time `now`. -/
def analysisMissingOrExpired {T A M P : Type} (st : CacheState T A M P)
    (key : String) (now : Nat) : Bool :=
  match mapGet st.analysisCache key with
  | none => true
  | some e => now - e.timestamp > CACHE_TTL_MS

/-- Spec-side staleness test for the plan entry of `key`. -/
def planMissingOrExpired {T A M P : Type} (st : CacheState T A M P)
    (key : String) (now : Nat) : Bool :=
  match mapGet st.planCache key with
  | none => true
  | some pe => now - pe.timestamp > CACHE_TTL_MS

/-- Result of one successful `handlePlanMigrationRequest` pass. -/
structure PlanFlowResult (T A M : Type) where
  state : CacheState T A M MigrationPlan
  plan : MigrationPlan
  ranIngest : Bool
  ranAnalyze : Bool
deriving Repr

/-- `handlePlanMigrationRequest` (`http.ts` lines 246–366) after the cache
key is resolved.  A cached analysis entry is used *without any TTL
comparison*; only on a miss is the tree fetched (from `repoCache`, again
without TTL, or by ingesting when a `repoUrl` was supplied) and the analysis
recomputed and cached.  The plan is then generated, truncated, cached and
returned.  `Except.error` models the fail-fast 400 response. -/
def planMigrationFlow {T A M : Type} (key : String) (now : Nat)
    (repoUrlProvided : Bool) (ingestVal : T) (analyze : T → A) (meta : T → M)
    (planFn : M → A → MigrationPlan)
    (st : CacheState T A M MigrationPlan) :
    Except String (PlanFlowResult T A M) :=
  match mapGet st.analysisCache key with
  | some cached =>
      let plan := truncatePlan (planFn cached.repoMetadata cached.analysisResult)
      .ok ⟨{ st with planCache := mapSet st.planCache key ⟨plan, now⟩ },
           plan, false, false⟩
  | none =>
      match mapGet st.repoCache key with
      | some tree =>
          let e : AnalysisCacheEntry A M := ⟨analyze tree, meta tree, now⟩
          let st1 := { st with analysisCache := mapSet st.analysisCache key e }
          let plan := truncatePlan (planFn e.repoMetadata e.analysisResult)
          .ok ⟨{ st1 with planCache := mapSet st1.planCache key ⟨plan, now⟩ },
               plan, false, true⟩
      | none =>
          if repoUrlProvided then
            let st0 := { st with repoCache := mapSet st.repoCache key ingestVal }
            let e : AnalysisCacheEntry A M := ⟨analyze ingestVal, meta ingestVal, now⟩
            let st1 := { st0 with analysisCache := mapSet st0.analysisCache key e }
            let plan := truncatePlan (planFn e.repoMetadata e.analysisResult)
            .ok ⟨{ st1 with planCache := mapSet st1.planCache key ⟨plan, now⟩ },
                 plan, true, true⟩
          else .error "Repository not cached; provide repoUrl to ingest"

/-! ## Recommendation generation (`migrationPlanner`, `generateRecommendations`)

The language model is the external collaborator; its text response and
JavaScript's `JSON.parse` (plus the `Array.isArray` validation) are
parameters.  What is verified is the planner's own extraction and fallback
logic around them (planner lines 271–330). -/

/-- The single fallback recommendation returned from the `catch` block of
`generateRecommendations` (planner lines 318–328). -/
def fallbackRecommendation : MigrationRecommendation :=
  { filePath := "general", contractName := "General",
    changeCategory := .architecture,
    recommendedChange := "Review Claude response for detailed recommendations",
    rationale := "LLM analysis completed but response parsing requires verification",
    confidenceLevel := .low }

/-- The greedy match `content.text.match(/\[[\s\S]*\]/)`: the span from the
first `[` to the last `]` when the latter comes after the former, else no
match. -/
def extractJsonArraySpan (s : String) : Option String :=
  let cs := s.toList
  let opens := (cs.enum.filter fun q => q.2 == '[').map fun q => q.1
  let closes := (cs.enum.filter fun q => q.2 == ']').map fun q => q.1
  match opens.head?, closes.getLast? with
  | some i, some j =>
      if i < j then some (String.mk ((cs.drop i).take (j - i + 1))) else none
  | _, _ => none

/-- `generateRecommendations` (planner lines 271–330) on a text response.
`parseArray` stands for `JSON.parse` followed by the `Array.isArray` check —
`none` models a parse exception or a non-array value, both of which land in
the `catch` that returns the single fallback recommendation; so does the
absence of any JSON-array span. -/
def generateRecommendations
    (parseArray : String → Option (List MigrationRecommendation))
    (text : String) : List MigrationRecommendation :=
  match extractJsonArraySpan text with
  | none => [fallbackRecommendation]
  | some s =>
      match parseArray s with
      | none => [fallbackRecommendation]
      | some recs => recs

/-! ## Concurrency model for the cold-cache race (`http.ts` lines 407–413)

A request handler running the tree stage performs, in one synchronous slice,
the cache read and — on a miss — enters `await ingestRepository(...)`; the
`repoCache.set` runs in a second slice after the await resolves.  There is
no in-flight marker in the source.  The scheduler below interleaves those
atomic slices of `n` identical requests for one key. -/

/-- Progress of one request through the tree stage. -/
inductive ReqPhase where
  | start
  | computing
  | finished
deriving DecidableEq, Repr

/-- Shared state: the cache entry for the key (payload irrelevant, `Nat`
stands for the tree), each request's phase, and how many times the external
compute function (`ingestRepository`) has been invoked. -/
structure ConcState where
  cache : Option Nat
  phases : List ReqPhase
  invocations : Nat
deriving DecidableEq, Repr

/-- One atomic slice of request `i`: from `start`, read the cache — on a hit
finish, on a miss begin the collaborator call (counted) and suspend; from
`computing`, resume after the call, write the cache and finish. -/
def stepReq (st : ConcState) (i : Nat) : ConcState :=
  match st.phases[i]? with
  | some .start =>
      match st.cache with
      | some _ => { st with phases := st.phases.set i .finished }
      | none => { st with phases := st.phases.set i .computing,
                          invocations := st.invocations + 1 }
  | some .computing =>
      { st with cache := some 0, phases := st.phases.set i .finished }
  | _ => st

/-- Run a schedule (a sequence of request indices, each naming whose next
slice runs). -/
def runSchedule (st : ConcState) (sched : List Nat) : ConcState :=
  sched.foldl stepReq st

/-- `n` simultaneous requests arriving on a cold cache. -/
def coldState (n : Nat) : ConcState :=
  ⟨none, List.replicate n .start, 0⟩

/-- All requests have completed. -/
def allFinished (st : ConcState) : Bool :=
  st.phases.all (· == .finished)

/-- State for the C3/C5 scenario: tree, analysis and plan all cached for
`"o/r"`; the analysis entry is `CACHE_TTL_MS + 1` old at observation time,
the plan entry is fresh. -/
def staleAnalysisState : CacheState Nat Nat Nat Nat :=
  { repoCache := [("o/r", 5)],
    analysisCache := [("o/r", ⟨10, 11, 0⟩)],
    planCache := [("o/r", ⟨20, CACHE_TTL_MS + 1⟩)] }

/-- The C3 scenario run: `handleTransformRequest` for `"o/r"` at time
`CACHE_TTL_MS + 1`, so the analysis entry is expired while the plan entry is
fresh. -/
def staleAnalysisRun : TransformFlowResult Nat Nat Nat Nat Nat :=
  transformFlow "o/r" (CACHE_TTL_MS + 1) 7 (· + 1) (· + 2)
    (fun m a => m + a) (fun p a t => p + a + t) staleAnalysisState

/-- The C5 tree-stage scenario: the tree for `"o/r"` was cached at time `0`
and the request arrives at `2 * CACHE_TTL_MS` — four times the TTL past —
with empty analysis and plan caches. -/
def agedTreeRun : TransformFlowResult Nat Nat Nat Nat Nat :=
  transformFlow "o/r" (2 * CACHE_TTL_MS) 7 (· + 1) (· + 2)
    (fun m a => m + a) (fun p a t => p + a + t)
    { repoCache := [("o/r", 5)], analysisCache := [], planCache := [] }

/-- The C5 plan-endpoint scenario: `handlePlanMigrationRequest` at time
`2 * CACHE_TTL_MS` with an analysis entry cached at time `0`. -/
def agedAnalysisPlanRun : Except String (PlanFlowResult Nat Nat Nat) :=
  planMigrationFlow "o/r" (2 * CACHE_TTL_MS) true 7 (· + 1) (· + 2)
    (fun _ _ => ⟨"o/r", [], [], [], []⟩)
    { repoCache := [], analysisCache := [("o/r", ⟨10, 11, 0⟩)], planCache := [] }

/-! ## Transformer agent (`transformer.ts`)

The per-file language-model call (`performFileTransformation`) and the
content fetch (`getFileContent`) are external collaborators; both are
parameters of the repository-transformation pipeline, which is otherwise
translated statement by statement.  JavaScript numbers are `ℚ` and
`Math.round x = ⌊x + 1/2⌋`. -/

/-- `Math.round` (half-up, toward +∞). -/
def jsRound (x : ℚ) : ℤ := ⌊x + 1 / 2⌋

/-- `Math.round(x * 100) / 100` — round to two decimals. -/
def jsRound2 (x : ℚ) : ℚ := (jsRound (x * 100) : ℚ) / 100

/-- JavaScript's `a || b` on strings: `b` when `a` is absent or empty. -/
def jsOrElse (o : Option String) (d : String) : String :=
  match o with
  | some s => if s == "" then d else s
  | none => d

/-- The `action` field of the transformer's per-file JSON response. -/
inductive TransformAction where
  | apply
  | skip
deriving DecidableEq, Repr

/-- One entry of `appliedChanges` in the transformer response
(`PerFileTransformation` in `transformer.ts` lines 67–79). -/
structure RawChange where
  type : String
  description : String
  originalSnippet : String
  transformedSnippet : String
  lineRange : Option (Nat × Nat)
deriving DecidableEq, Repr

/-- `PerFileTransformation` — the (already parsed) transformer response for
one file. -/
structure PerFileTransformation where
  action : TransformAction
  reason : Option String
  appliedChanges : List RawChange
  transformedCode : Option String
  warnings : List String
deriving DecidableEq, Repr

/-- `AppliedChange` from `types/index.ts`. -/
structure AppliedChange where
  changeIndex : Nat
  recommendationId : String
  description : String
  originalCode : String
  transformedCode : String
  lineNumbers : Option (Nat × Nat)
deriving DecidableEq, Repr

/-- `SkippedChange` from `types/index.ts`. -/
structure SkippedChange where
  changeIndex : Nat
  recommendationId : String
  description : String
  reason : String
deriving DecidableEq, Repr

/-- `TransformedFile` from `types/index.ts`. -/
structure TransformedFile where
  filePath : String
  originalContent : String
  transformedContent : String
  appliedChanges : List AppliedChange
  skippedChanges : List SkippedChange
  hasChanges : Bool
  confidenceScore : ℚ
  warnings : List String
deriving DecidableEq, Repr

/-- The numeric value `calculateConfidenceScore` assigns a confidence level
(`transformer.ts` line 406). -/
def confidenceValue : ConfidenceLevel → ℚ
  | .high => 9 / 10
  | .medium => 6 / 10
  | .low => 3 / 10

/-- `calculateConfidenceScore` (`transformer.ts` lines 396–414): zero when
nothing was applied, else the mean recommendation confidence scaled by the
applied fraction, rounded to two decimals. -/
def calculateConfidenceScore (appliedChanges : List AppliedChange)
    (recommendations : List MigrationRecommendation) : ℚ :=
  if appliedChanges.length = 0 then 0
  else
    let avgConfidence :=
      (recommendations.foldl (fun sum r => sum + confidenceValue r.confidenceLevel) 0) /
        (recommendations.length : ℚ)
    let applicationRate :=
      (appliedChanges.length : ℚ) / (recommendations.length : ℚ)
    jsRound2 (avgConfidence * applicationRate)

/-- The pure core of `transformFile` (`transformer.ts` lines 240–316) once
the original content and the transformer response are in hand. -/
def transformFile (filePath : String)
    (recommendations : List MigrationRecommendation)
    (originalContent : String) (transformation : PerFileTransformation) :
    TransformedFile :=
  let appliedChanges : List AppliedChange :=
    if transformation.action == .apply then
      transformation.appliedChanges.enum.map fun q =>
        ⟨q.1, s!"{filePath}-{q.1}", q.2.description, q.2.originalSnippet,
         q.2.transformedSnippet, q.2.lineRange⟩
    else []
  let skippedChanges : List SkippedChange :=
    if transformation.action == .skip then
      recommendations.enum.map fun q =>
        ⟨q.1, s!"{filePath}-{q.1}", q.2.recommendedChange,
         jsOrElse transformation.reason "Ambiguous or unsafe transformation"⟩
    else []
  let hasChanges := appliedChanges.length > 0
  let transformedContent :=
    if hasChanges then jsOrElse transformation.transformedCode originalContent
    else originalContent
  { filePath, originalContent, transformedContent, appliedChanges,
    skippedChanges, hasChanges,
    confidenceScore := calculateConfidenceScore appliedChanges recommendations,
    warnings := transformation.warnings }

/-- JS `split('\n')` on character lists. -/
def splitNl : List Char → List (List Char)
  | [] => [[]]
  | c :: cs =>
      if c == '\n' then [] :: splitNl cs
      else
        match splitNl cs with
        | [] => [[c]]
        | r :: rs => (c :: r) :: rs

/-- JavaScript's `String.prototype.split('\n')`. -/
def jsSplitLines (s : String) : List String :=
  (splitNl s.toList).map String.mk

/-- JS `substring(0, n)`. -/
def jsTakeChars (s : String) (n : Nat) : String :=
  String.mk (s.toList.take n)

/-- `lines[i]` rendered by the template string: `undefined` out of range. -/
def lineAt (ls : List String) (i : Nat) : String :=
  (ls[i]?).getD "undefined"

/-- `generateDiffPreview` (`transformer.ts` lines 416–435): first ten line
positions that differ, rendered `-`/`+`, joined and cut to 500 chars. -/
def generateDiffPreview (original transformed : String) : String :=
  if original == transformed then ""
  else
    let originalLines := jsSplitLines original
    let transformedLines := jsSplitLines transformed
    let maxLines := max originalLines.length transformedLines.length
    let diffs :=
      (List.range (min maxLines 10)).foldl
        (fun acc i =>
          if originalLines[i]? ≠ transformedLines[i]? then
            acc ++ [s!"-  {lineAt originalLines i}",
                    s!"+  {lineAt transformedLines i}"]
          else acc)
        []
    jsTakeChars ((List.intersperse "\n" diffs).foldl (· ++ ·) "") 500

/-- `FileTransformReport` from `types/index.ts`. -/
structure FileTransformReport where
  filePath : String
  success : Bool
  appliedChangesCount : Nat
  skippedChangesCount : Nat
  confidenceScore : ℚ
  warnings : List String
  diffPreview : String
deriving DecidableEq, Repr

/-- The `crossFileConsistency` object of a `TransformationReport`. -/
structure ConsistencyReport where
  checked : Bool
  importsValid : Bool
  inheritanceValid : Bool
  issues : List String
deriving DecidableEq, Repr

/-- The `summary` object of a `TransformationReport`. -/
structure TransformSummary where
  overallConfidence : ℚ
  recommendations : List String
  nextSteps : List String
deriving DecidableEq, Repr

/-- `TransformationReport` from `types/index.ts` (timestamps and the id
string, which are wall-clock data, are omitted). -/
structure TransformationReport where
  repositoryName : String
  filesProcessed : Nat
  filesModified : Nat
  filesSkipped : Nat
  totalAppliedChanges : Nat
  totalSkippedChanges : Nat
  fileReports : List FileTransformReport
  crossFileConsistency : ConsistencyReport
  summary : TransformSummary
  errors : List (Option String × String)
deriving DecidableEq, Repr

/-- `path.substring(0, path.lastIndexOf('/'))` with the JS clamp of `-1` to
`0` (no slash ⇒ empty string). -/
def dirOf (path : String) : String :=
  let cs := path.toList
  match ((cs.enum.filter fun q => q.2 == '/').map fun q => q.1).getLast? with
  | some i => String.mk (cs.take i)
  | none => ""

/-- JS `substring(n)` — drop the first `n` characters. -/
def jsDropChars (s : String) (n : Nat) : String :=
  String.mk (s.toList.drop n)

/-- `resolveImport` (`transformer.ts` lines 477–487): resolve `./` and `../`
against the importing file's directory; other paths pass through. -/
def resolveImport (fromFile importPath : String) : String :=
  let fromDir := dirOf fromFile
  if jsStartsWith importPath "./" then
    fromDir ++ "/" ++ jsDropChars importPath 2
  else if jsStartsWith importPath "../" then
    dirOf fromDir ++ "/" ++ jsDropChars importPath 3
  else importPath

/-- `fileExists` (`transformer.ts` lines 489–492): the resolved path matches
some analyzed contract's file path. -/
def fileExists (contracts : List SolidityContract) (path : String) : Bool :=
  contracts.any fun c => c.filePath == path

/-- The condition under which the import loop of
`validateCrossFileConsistency` records an issue: a non-empty captured path
that is not an `http` URL, resolves to no analyzed contract's file, and
carries no external-package marker `@`. -/
def brokenImport (contracts : List SolidityContract)
    (filePath importPath : String) : Bool :=
  !(importPath == "") && !(jsStartsWith importPath "http") &&
    !(fileExists contracts (resolveImport filePath importPath)) &&
    !(jsIncludes importPath "@")

/-- The issue string pushed for a broken import (`transformer.ts` line 453). -/
def importIssueMsg (filePath importPath : String) : String :=
  s!"File {filePath}: Import not found: {importPath}"

/-- The condition of the inheritance loop: parent name declared by no
analyzed contract and carrying no `@`. -/
def brokenParent (contracts : List SolidityContract)
    (parentName : String) : Bool :=
  !(contracts.any fun c => c.name == parentName) &&
    !(jsIncludes parentName "@")

/-- The issue string pushed for a broken parent (`transformer.ts` line 465). -/
def parentIssueMsg (contractName parentName : String) : String :=
  s!"Contract {contractName}: Parent contract not found: {parentName}"

/-- The loop body shared by both checks of `validateCrossFileConsistency`:
on a bad item clear the validity flag and push the issue, else continue. -/
def flagStep {α : Type} (bad : α → Bool) (msg : α → String)
    (acc : Bool × List String) (x : α) : Bool × List String :=
  if bad x then (false, acc.2 ++ [msg x]) else acc

/-- A loop over `bs` whose body runs `flagStep` over `inner b` — the common
shape of both checking loops of `validateCrossFileConsistency`. -/
def nestedFlagFold {β α : Type} (bad : β → α → Bool) (msg : β → α → String)
    (inner : β → List α) (bs : List β) (acc : Bool × List String) :
    Bool × List String :=
  bs.foldl (fun a b => (inner b).foldl (flagStep (bad b) (msg b)) a) acc

/-- `validateCrossFileConsistency` (`transformer.ts` lines 437–475).  The
regex scan over each transformed file's content is lexical extraction of
the import-path literals; the verified logic receives, per transformed file, the
list of paths that scan yields (`transformedImports`), mirroring the
`importMatches` loop; the inheritance loop runs over the analyzed
contracts. -/
def validateCrossFileConsistency
    (transformedImports : List (String × List String))
    (contracts : List SolidityContract) : ConsistencyReport :=
  let imp :=
    nestedFlagFold (fun fp => brokenImport contracts fp.1)
      (fun fp => importIssueMsg fp.1) (fun fp => fp.2) transformedImports
      (true, [])
  let inh :=
    nestedFlagFold (fun _ => brokenParent contracts)
      (fun c => parentIssueMsg c.name) (fun c => c.inherits) contracts
      (true, imp.2)
  ⟨true, imp.1, inh.1, inh.2⟩

/-- Builds the `FileTransformReport` pushed for a successfully transformed
file (`transformer.ts` lines 160–172). -/
def mkFileReport (filePath : String) (t : TransformedFile) :
    FileTransformReport :=
  ⟨filePath, true, t.appliedChanges.length, t.skippedChanges.length,
   t.confidenceScore, t.warnings,
   generateDiffPreview t.originalContent t.transformedContent⟩

/-- `groupRecommendationsByFile` (`transformer.ts` lines 227–238): a `Map`
keyed by file path in first-occurrence order, values in encounter order. -/
def groupRecommendationsByFile (recs : List MigrationRecommendation) :
    List (String × List MigrationRecommendation) :=
  recs.foldl
    (fun acc r =>
      if acc.any fun q => q.1 == r.filePath then
        acc.map fun q => if q.1 == r.filePath then (q.1, q.2 ++ [r]) else q
      else acc ++ [(r.filePath, [r])])
    []

/-- Accumulator of the per-file loop of `transformRepository`
(`transformer.ts` lines 143–182). -/
structure TransformLoopAcc where
  filesProcessed : Nat
  filesModified : Nat
  filesSkipped : Nat
  totalAppliedChanges : Nat
  totalSkippedChanges : Nat
  fileReports : List FileTransformReport
  errors : List (Option String × String)
  transformedFiles : List (String × TransformedFile)
deriving Repr

/-- One iteration of the per-file loop: `outcome` stands for the combination
of `getFileContent` and the transformer call — `Except.error` models the
per-file `catch` (which records the error and counts the file as processed
and skipped), `Except.ok` carries the original content and the parsed
response. -/
def processFileStep
    (outcome : String → List MigrationRecommendation →
      Except String (String × PerFileTransformation))
    (acc : TransformLoopAcc)
    (entry : String × List MigrationRecommendation) : TransformLoopAcc :=
  match outcome entry.1 entry.2 with
  | .error e =>
      { acc with
        filesProcessed := acc.filesProcessed + 1,
        filesSkipped := acc.filesSkipped + 1,
        errors := acc.errors ++ [(some entry.1, e)] }
  | .ok q =>
      let t := transformFile entry.1 entry.2 q.1 q.2
      { filesProcessed := acc.filesProcessed + 1,
        filesModified := acc.filesModified + (if t.hasChanges then 1 else 0),
        filesSkipped := acc.filesSkipped + (if t.hasChanges then 0 else 1),
        totalAppliedChanges := acc.totalAppliedChanges + t.appliedChanges.length,
        totalSkippedChanges := acc.totalSkippedChanges + t.skippedChanges.length,
        fileReports := acc.fileReports ++ [mkFileReport entry.1 t],
        errors := acc.errors,
        transformedFiles := acc.transformedFiles ++ [(entry.1, t)] }

/-- `generateRecommendations` of the transformer report (`transformer.ts`
lines 494–518): deterministic strings from report counters. -/
def generateReportRecommendations (filesModified : Nat)
    (overallConfidence : ℚ) (issuesCount errorsCount : Nat) : List String :=
  let r1 :=
    if filesModified = 0 then
      ["No transformations applied - review migration plan"]
    else []
  let r2 :=
    if overallConfidence < 7 / 10 then
      ["Low confidence in transformations - manual review recommended"]
    else []
  let r3 :=
    if issuesCount > 0 then
      [s!"Fix {issuesCount} cross-file consistency issues"]
    else []
  let r4 :=
    if errorsCount > 0 then
      [s!"Review {errorsCount} transformation errors"]
    else []
  let all := r1 ++ r2 ++ r3 ++ r4
  if all.isEmpty then
    ["Transformations completed successfully - ready for testing"]
  else all

/-- The constant `nextSteps` list (`transformer.ts` lines 198–205). -/
def transformNextSteps : List String :=
  ["Review transformed code in diffs/",
   "Run test suite to verify functionality",
   "Check cross-file imports and references",
   "Deploy to Monad testnet",
   "Perform load testing for parallelization benefits",
   "Audit critical contracts pre-mainnet"]

/-- `transformRepository` (`transformer.ts` lines 105–225) with its external
collaborators as parameters: `outcome` per file (content fetch plus
transformer call), `extractImportPaths` the lexical import scan used by the
consistency check.  Produces the final `TransformationReport`. -/
def transformRepositoryPure (repoName : String) (plan : MigrationPlan)
    (contracts : List SolidityContract)
    (outcome : String → List MigrationRecommendation →
      Except String (String × PerFileTransformation))
    (extractImportPaths : String → List String) : TransformationReport :=
  let grouped := groupRecommendationsByFile plan.recommendations
  let acc := grouped.foldl (processFileStep outcome) ⟨0, 0, 0, 0, 0, [], [], []⟩
  let consistency :=
    validateCrossFileConsistency
      (acc.transformedFiles.map fun q => (q.1, extractImportPaths q.2.transformedContent))
      contracts
  let overallConfidence :=
    if acc.filesModified > 0 then
      jsRound2
        ((acc.fileReports.foldl (fun s f => s + f.confidenceScore) 0) /
          (acc.fileReports.length : ℚ))
    else 0
  { repositoryName := repoName,
    filesProcessed := acc.filesProcessed,
    filesModified := acc.filesModified,
    filesSkipped := acc.filesSkipped,
    totalAppliedChanges := acc.totalAppliedChanges,
    totalSkippedChanges := acc.totalSkippedChanges,
    fileReports := acc.fileReports,
    crossFileConsistency := consistency,
    summary :=
      ⟨overallConfidence,
       generateReportRecommendations acc.filesModified overallConfidence
         consistency.issues.length acc.errors.length,
       transformNextSteps⟩,
    errors := acc.errors }

/-- The overall confidence the spec describes: the mean over the *modified*
files' confidence scores only, rounded to two decimals, `0` with no modified
files.  Written from the spec's words, to be compared with the source's
computation. -/
def specOverallConfidence (rep : TransformationReport) : ℚ :=
  let ms := rep.fileReports.filter fun f => 0 < f.appliedChangesCount
  if ms.length = 0 then 0
  else
    jsRound2 ((ms.foldl (fun s f => s + f.confidenceScore) 0) / (ms.length : ℚ))

/-- Recommendations for two files; the transformer applies one change in
`a.sol` and skips `b.sol`. -/
def twoFilePlan : MigrationPlan :=
  ⟨"o/r",
   [⟨"a.sol", "A", .gasOptimization, "pack fields", "cheaper", .high⟩,
    ⟨"b.sol", "B", .performance, "unclear change", "why", .high⟩],
   [], [], []⟩

/-- Transformer outcomes for `twoFilePlan`: one applied change in `a.sol`,
a skip for `b.sol`. -/
def twoFileOutcome : String → List MigrationRecommendation →
    Except String (String × PerFileTransformation) := fun fp _ =>
  if fp == "a.sol" then
    .ok ("orig-a",
      ⟨.apply, none, [⟨"gas-optimization", "packed", "a;b", "ab", none⟩],
       some "new-a", []⟩)
  else
    .ok ("orig-b", ⟨.skip, some "ambiguous", [], none, []⟩)

/-- The report of the two-file scenario run. -/
def twoFileReport : TransformationReport :=
  transformRepositoryPure "o/r" twoFilePlan [] twoFileOutcome fun _ => []

/-! ## Theorems -/

lemma isOnlyInherited_eq_true_iff (n : String) (g : DependencyGraph) :
    isOnlyInherited n g = true ↔
      hasInheritanceEdgeInto g n ∧ ¬ hasInheritanceEdgeFrom g n := by
  simp [isOnlyInherited, hasInheritanceEdgeInto, hasInheritanceEdgeFrom,
    List.any_eq_true, Bool.and_eq_true, Bool.not_eq_true']

lemma mem_identifyEntryPoints (contracts : List SolidityContract)
    (g : DependencyGraph) (n : String) :
    n ∈ identifyEntryPoints contracts g ↔
      ∃ c ∈ contracts, c.name = n ∧ c.type = ContractType.contract ∧
        ¬ (hasInheritanceEdgeInto g n ∧ ¬ hasInheritanceEdgeFrom g n) := by
  constructor
  · intro h
    simp only [identifyEntryPoints, List.mem_map, List.mem_filter,
      Bool.and_eq_true, beq_iff_eq, Bool.not_eq_true'] at h
    obtain ⟨c, ⟨hc, htype, honly⟩, hname⟩ := h
    refine ⟨c, hc, hname, htype, ?_⟩
    rw [← hname, ← isOnlyInherited_eq_true_iff]
    simp [honly]
  · rintro ⟨c, hc, hname, htype, hnot⟩
    simp only [identifyEntryPoints, List.mem_map, List.mem_filter,
      Bool.and_eq_true, beq_iff_eq, Bool.not_eq_true']
    refine ⟨c, ⟨hc, htype, ?_⟩, hname⟩
    rw [← isOnlyInherited_eq_true_iff] at hnot
    rw [hname]
    exact Bool.eq_false_iff.mpr hnot

lemma pushIfNewNonempty_nodup {acc : List String} (h : acc.Nodup)
    (n : String) : (pushIfNewNonempty acc n).Nodup := by
  unfold pushIfNewNonempty
  split
  · rename_i hc
    rw [List.nodup_append]
    refine ⟨h, List.nodup_singleton n, ?_⟩
    intro a ha hb
    rw [List.mem_singleton] at hb
    exact hc.2 (hb ▸ ha)
  · exact h

lemma foldl_pushIfNewNonempty_nodup (names : List String) :
    ∀ acc : List String, acc.Nodup →
      (names.foldl pushIfNewNonempty acc).Nodup := by
  induction names with
  | nil => exact fun acc h => h
  | cons n ns ih => exact fun acc h => ih _ (pushIfNewNonempty_nodup h n)

lemma dedupNames_nodup (names : List String) : (dedupNames names).Nodup :=
  foldl_pushIfNewNonempty_nodup names [] List.nodup_nil

lemma mem_parseFileContracts {root : SNode} {filePath : String}
    {c : SolidityContract} (h : c ∈ parseFileContracts root filePath) :
    c.inherits.Nodup ∧ c.imports = extractImports root := by
  rw [parseFileContracts, List.mem_filterMap] at h
  obtain ⟨n, -, hn⟩ := h
  rw [extractContract] at hn
  rcases hfield : childForFieldName n "name" with _ | nameNode <;>
    rw [hfield] at hn
  · exact absurd hn (by simp)
  · rw [Option.some_inj] at hn
    subst hn
    refine ⟨?_, rfl⟩
    rcases hinh : childForFieldName n "inheritance" with _ | inhNode <;>
      simp [hinh, dedupNames_nodup]

/-- **C1.** A contract name is in the entry-point list of an analysis run iff
some extracted contract bears that name with kind `contract` and it is not the
case that some inheritance edge of the run's dependency graph targets the name
while none originates from it; in the `Token` / `Sale is Token` scenario the
entry points are exactly `["Sale"]`. -/
theorem entryPoints_iff_concrete_not_onlyInherited :
    (∀ (contracts : List SolidityContract) (n : String),
      n ∈ analysisEntryPoints contracts ↔
        ∃ c ∈ contracts, c.name = n ∧ c.type = ContractType.contract ∧
          ¬ (hasInheritanceEdgeInto (buildDependencyGraph contracts) n ∧
             ¬ hasInheritanceEdgeFrom (buildDependencyGraph contracts) n)) ∧
    analysisEntryPoints [tokenContract, saleContract] = ["Sale"] := by
  refine ⟨fun contracts n => ?_, by decide⟩
  exact mem_identifyEntryPoints contracts (buildDependencyGraph contracts) n

/-- **C7, counterexample.** The extractor run on a file whose source repeats
`import "./A.sol";` produces a `ContractUnit` whose `imports` list holds the
path twice: the claimed de-duplication of `imports` does not happen. -/
theorem extractor_imports_duplicate_counterexample :
    ∃ c ∈ parseFileContracts dupImportRoot "Token.sol",
      ¬ (c.imports.Nodup ∧ c.inherits.Nodup) := by
  decide

/-- **C7, amended.** Every `ContractUnit` the extractor produces has a
duplicate-free `inherits` list (de-duplicated at extraction, first occurrence
kept), while its `imports` list is the file's import list verbatim — one entry
per import directive, duplicates preserved. -/
theorem extractor_inherits_nodup_imports_verbatim :
    ∀ (root : SNode) (filePath : String),
      ∀ c ∈ parseFileContracts root filePath,
        c.inherits.Nodup ∧ c.imports = extractImports root :=
  fun _ _ _ h => mem_parseFileContracts h

/-- Witness for `extractor_inherits_nodup_imports_verbatim` at the
double-import scenario file. -/
theorem extractor_inherits_nodup_imports_verbatim_witness :
    tokenExtracted ∈ parseFileContracts dupImportRoot "Token.sol" ∧
      tokenExtracted.inherits.Nodup ∧
      tokenExtracted.imports = extractImports dupImportRoot :=
  have hmem : tokenExtracted ∈ parseFileContracts dupImportRoot "Token.sol" := by
    have hlist : parseFileContracts dupImportRoot "Token.sol"
        = [tokenExtracted] := by rfl
    rw [hlist]
    exact List.mem_singleton_self _
  ⟨hmem,
   extractor_inherits_nodup_imports_verbatim dupImportRoot "Token.sol"
     tokenExtracted hmem⟩

lemma addTargets_eq (from_ : String) (kind : EdgeType) :
    ∀ (ts ns : List String) (es : List DependencyEdge),
      addTargets from_ kind ns es ts =
        (ts.foldl addNode ns, es ++ ts.map fun t => ⟨from_, t, kind⟩) := by
  intro ts
  induction ts with
  | nil => intro ns es; simp [addTargets]
  | cons t ts ih =>
      intro ns es
      rw [addTargets, ih]
      simp

lemma buildFrom_edges :
    ∀ (cs : List SolidityContract) (ns : List String)
      (es : List DependencyEdge),
      (buildFrom ns es cs).edges = es ++ cs.flatMap edgesOfContract := by
  intro cs
  induction cs with
  | nil => intro ns es; simp [buildFrom]
  | cons c cs ih =>
      intro ns es
      rw [buildFrom]
      simp only [addTargets_eq]
      rw [ih]
      simp [edgesOfContract, List.append_assoc]

lemma addNode_nodup {ns : List String} (h : ns.Nodup) (n : String) :
    (addNode ns n).Nodup := by
  unfold addNode
  split
  · exact h
  · rename_i hn
    rw [List.nodup_append]
    refine ⟨h, List.nodup_singleton _, ?_⟩
    intro a ha hb
    rw [List.mem_singleton] at hb
    exact hn (hb ▸ ha)

lemma foldl_addNode_nodup (ts : List String) :
    ∀ ns : List String, ns.Nodup → (ts.foldl addNode ns).Nodup := by
  induction ts with
  | nil => exact fun ns h => h
  | cons t ts ih => exact fun ns h => ih _ (addNode_nodup h t)

lemma buildFrom_nodes_nodup :
    ∀ (cs : List SolidityContract) (ns : List String)
      (es : List DependencyEdge), ns.Nodup →
      (buildFrom ns es cs).nodes.Nodup := by
  intro cs
  induction cs with
  | nil => intro ns es h; simpa [buildFrom] using h
  | cons c cs ih =>
      intro ns es h
      rw [buildFrom]
      simp only [addTargets_eq]
      exact ih _ _
        (foldl_addNode_nodup _ _ (foldl_addNode_nodup _ _ (addNode_nodup h _)))

/-- **C2, counterexample.** The dependency graph built from the contracts the
extractor produces for the double-import file contains the edge
`(Token, ./A.sol, import)` twice: edges are not de-duplicated per
(from, to, kind) triple. -/
theorem graph_duplicate_edge_counterexample :
    ¬ ((buildDependencyGraph
          (parseFileContracts dupImportRoot "Token.sol")).edges).Nodup := by
  decide

/-- **C2, amended.** `buildDependencyGraph` de-duplicates nodes but not edges:
its edge list is exactly the concatenation, contract by contract, of one
edge per `imports` entry (kind import) followed by one inheritance edge per
`inherits` entry — so a repeated entry (which import extraction can produce)
yields a repeated (from, to, kind) edge. -/
theorem graph_nodes_nodup_edges_concat :
    ∀ contracts : List SolidityContract,
      (buildDependencyGraph contracts).nodes.Nodup ∧
      (buildDependencyGraph contracts).edges =
        contracts.flatMap edgesOfContract := by
  intro contracts
  refine ⟨buildFrom_nodes_nodup contracts [] [] List.nodup_nil, ?_⟩
  rw [buildDependencyGraph, buildFrom_edges]
  simp

lemma mapGet_mapSet_self {α : Type} (m : List (String × α)) (k : String)
    (v : α) : mapGet (mapSet m k v) k = some v := by
  induction m with
  | nil => simp [mapGet, mapSet]
  | cons p rest ih =>
      by_cases h : p.1 = k
      · simp [mapGet, mapSet, h]
      · simp [mapGet, mapSet, h, ih]

lemma treeStep_analysisCache {T A M P : Type} (key : String) (iv : T)
    (st : CacheState T A M P) :
    (treeStep key iv st).2.2.analysisCache = st.analysisCache := by
  rcases h : mapGet st.repoCache key with _ | t <;> simp [treeStep, h]

lemma treeStep_planCache {T A M P : Type} (key : String) (iv : T)
    (st : CacheState T A M P) :
    (treeStep key iv st).2.2.planCache = st.planCache := by
  rcases h : mapGet st.repoCache key with _ | t <;> simp [treeStep, h]

lemma treeStep_ranIngest {T A M P : Type} (key : String) (iv : T)
    (st : CacheState T A M P) :
    (treeStep key iv st).2.1 = (mapGet st.repoCache key).isNone := by
  rcases h : mapGet st.repoCache key with _ | t <;> simp [treeStep, h]

lemma analysisStep_planCache {T A M P : Type} (key : String) (now : Nat)
    (an : T → A) (me : T → M) (tree : T) (st : CacheState T A M P) :
    (analysisStep key now an me tree st).2.2.planCache = st.planCache := by
  unfold analysisStep
  rcases h : mapGet st.analysisCache key with _ | e
  · simp [h]
  · simp only [h]
    split <;> rfl

lemma analysisStep_ranAnalyze {T A M P : Type} (key : String) (now : Nat)
    (an : T → A) (me : T → M) (tree : T) (st : CacheState T A M P) :
    (analysisStep key now an me tree st).2.1
      = analysisMissingOrExpired st key now := by
  unfold analysisStep analysisMissingOrExpired
  rcases h : mapGet st.analysisCache key with _ | e
  · simp [h]
  · simp only [h]
    split <;> rename_i hc <;> simp [hc]

lemma analysisMissingOrExpired_congr {T A M P T2 : Type}
    {st1 : CacheState T A M P} {st2 : CacheState T2 A M P} (key : String)
    (now : Nat) (h : st1.analysisCache = st2.analysisCache) :
    analysisMissingOrExpired st1 key now
      = analysisMissingOrExpired st2 key now := by
  unfold analysisMissingOrExpired
  rw [h]

lemma planMissingOrExpired_congr {T A M P T2 A2 M2 : Type}
    {st1 : CacheState T A M P} {st2 : CacheState T2 A2 M2 P} (key : String)
    (now : Nat) (h : st1.planCache = st2.planCache) :
    planMissingOrExpired st1 key now = planMissingOrExpired st2 key now := by
  unfold planMissingOrExpired
  rw [h]

lemma planStep_ranPlan {T A M P : Type} (key : String) (now : Nat)
    (pf : M → A → P) (e : AnalysisCacheEntry A M) (st : CacheState T A M P) :
    (planStep key now pf e st).2.1 = planMissingOrExpired st key now := by
  unfold planStep planMissingOrExpired
  rcases h : mapGet st.planCache key with _ | pe
  · simp [h]
  · simp only [h]
    split <;> rename_i hc <;> simp [hc]

lemma planStep_fresh {T A M P : Type} {key : String} {now : Nat}
    {pf : M → A → P} {e : AnalysisCacheEntry A M} {st : CacheState T A M P}
    {pe : PlanCacheEntry P} (h : mapGet st.planCache key = some pe)
    (hfresh : now - pe.timestamp ≤ CACHE_TTL_MS) :
    planStep key now pf e st = (pe, false, st) := by
  unfold planStep
  simp only [h]
  split
  · rename_i hc; omega
  · rfl

/-- **C3, counterexample.** A transform request for `"o/r"` at time
`CACHE_TTL_MS + 1` finds the analysis entry (cached at time 0) expired and
recomputes it, yet the plan artifact for the same key is neither deleted nor
recomputed: the stale-analysis-era plan entry survives in the cache and is
even the one handed to the transformer. -/
theorem upstream_recompute_keeps_downstream_counterexample :
    staleAnalysisRun.ranAnalyze = true ∧
    mapGet staleAnalysisRun.state.planCache "o/r"
      = some ⟨20, CACHE_TTL_MS + 1⟩ ∧
    staleAnalysisRun.ranPlan = false := by
  decide

/-- **C3, amended.** Recomputing an upstream stage does not invalidate
downstream artifacts: whenever the plan entry of a key is present and within
its own TTL, a transform request leaves the plan cache untouched and does
not re-plan — even when the same request found the analysis entry expired
and recomputed it (downstream staleness is governed solely by each stage's
own TTL, and the transform stage is never cached at all). -/
theorem downstream_plan_survives_upstream_recompute {T A M P R : Type}
    (key : String) (now : Nat) (iv : T) (an : T → A) (me : T → M)
    (pf : M → A → P) (tf : P → A → T → R) (st : CacheState T A M P)
    (pe : PlanCacheEntry P) (hpe : mapGet st.planCache key = some pe)
    (hfresh : now - pe.timestamp ≤ CACHE_TTL_MS) :
    (transformFlow key now iv an me pf tf st).state.planCache = st.planCache ∧
    (transformFlow key now iv an me pf tf st).ranPlan = false := by
  simp only [transformFlow]
  have h2 : (analysisStep key now an me (treeStep key iv st).1
      (treeStep key iv st).2.2).2.2.planCache = st.planCache :=
    (analysisStep_planCache _ _ _ _ _ _).trans (treeStep_planCache _ _ _)
  have h3 : mapGet (analysisStep key now an me (treeStep key iv st).1
      (treeStep key iv st).2.2).2.2.planCache key = some pe := by
    rw [h2]; exact hpe
  rw [planStep_fresh h3 hfresh]
  simpa using h2

/-- Witness for `downstream_plan_survives_upstream_recompute` at the
stale-analysis scenario state. -/
theorem downstream_plan_survives_upstream_recompute_witness :
    (transformFlow "o/r" (CACHE_TTL_MS + 1) 7 (· + 1) (· + 2)
        (fun m a => m + a) (fun p a t => p + a + t)
        staleAnalysisState).state.planCache
      = staleAnalysisState.planCache ∧
    (transformFlow "o/r" (CACHE_TTL_MS + 1) 7 (· + 1) (· + 2)
        (fun m a => m + a) (fun p a t => p + a + t)
        staleAnalysisState).ranPlan = false :=
  downstream_plan_survives_upstream_recompute "o/r" (CACHE_TTL_MS + 1) 7
    (· + 1) (· + 2) (fun m a => m + a) (fun p a t => p + a + t)
    staleAnalysisState ⟨20, CACHE_TTL_MS + 1⟩ (by decide) (by decide)

/-- **C5, counterexample.** Age is not uniformly honoured: a tree cached at
time `0` is still served at time `2 * CACHE_TTL_MS` (the tree cache stores no
timestamp, so no age can ever expire it), and `handlePlanMigrationRequest`
consumes an analysis entry of the same age without recomputing it (its cache
read performs no TTL comparison). -/
theorem ttl_not_enforced_everywhere_counterexample :
    agedTreeRun.ranIngest = false ∧
    agedAnalysisPlanRun.toOption.map (fun r => (r.ranIngest, r.ranAnalyze))
      = some (false, false) := by
  decide

/-- **C5, amended.** The 30-minute TTL is enforced only for the analysis and
plan stages on the transform path: there an entry older than `CACHE_TTL_MS`
(or absent) is recomputed, and a younger one is served.  The tree stage
recomputes exactly on a miss — never on age — the transform stage is not
cached, and the plan-migration endpoint reads the analysis cache without any
TTL check. -/
theorem ttl_governs_only_analysis_and_plan_stages {T A M P R : Type}
    (key : String) (now : Nat) (iv : T) (an : T → A) (me : T → M)
    (pf : M → A → P) (tf : P → A → T → R) (st : CacheState T A M P) :
    (transformFlow key now iv an me pf tf st).ranIngest
        = (mapGet st.repoCache key).isNone ∧
    (transformFlow key now iv an me pf tf st).ranAnalyze
        = analysisMissingOrExpired st key now ∧
    (transformFlow key now iv an me pf tf st).ranPlan
        = planMissingOrExpired st key now := by
  refine ⟨treeStep_ranIngest key iv st, ?_, ?_⟩
  · show (analysisStep key now an me (treeStep key iv st).1
        (treeStep key iv st).2.2).2.1 = _
    rw [analysisStep_ranAnalyze]
    exact analysisMissingOrExpired_congr key now (treeStep_analysisCache key iv st)
  · show (planStep key now pf _ (analysisStep key now an me (treeStep key iv st).1
        (treeStep key iv st).2.2).2.2).2.1 = _
    rw [planStep_ranPlan]
    exact planMissingOrExpired_congr key now
      ((analysisStep_planCache _ _ _ _ _ _).trans (treeStep_planCache _ _ _))

/-- **C4, counterexample.** Two simultaneous requests on a cold cache, each
reading the cache before either completes its collaborator call, both observe
a miss and both invoke the compute function: the schedule completes with 2
invocations, not exactly 1. -/
theorem concurrent_cold_requests_counterexample :
    allFinished (runSchedule (coldState 2) [0, 1, 0, 1]) = true ∧
    (runSchedule (coldState 2) [0, 1, 0, 1]).invocations = 2 := by
  decide

/-- **C4, amended.** The code has no per-(key, stage) in-flight marker: each
caller that observes a miss starts its own collaborator call.  Serialized
requests produce exactly one invocation (the second request hits the cache),
but N requests that all read the cache before any completes produce N
invocations — shown here for N = 2 and N = 3. -/
theorem concurrent_cold_requests_invocation_counts :
    ((runSchedule (coldState 2) [0, 0, 1]).invocations = 1 ∧
     allFinished (runSchedule (coldState 2) [0, 0, 1]) = true) ∧
    ((runSchedule (coldState 3) [0, 1, 2, 0, 1, 2]).invocations = 3 ∧
     allFinished (runSchedule (coldState 3) [0, 1, 2, 0, 1, 2]) = true) := by
  decide

lemma truncatePlan_length_le (plan : MigrationPlan) :
    (truncatePlan plan).recommendations.length ≤ MAX_RECOMMENDATIONS := by
  unfold truncatePlan
  split
  · simp
  · rename_i h
    omega

/-- **C10.** Every successful plan request returns — and caches under the
request's key, at the request's time — a plan with at most 200
recommendations; and the truncation step takes exactly the first 200
recommendations and appends the truncation limitation string whenever the
generator produced more than 200. -/
theorem plan_recommendations_truncated_to_cap :
    (∀ {T A M : Type} (key : String) (now : Nat) (rup : Bool) (iv : T)
        (an : T → A) (me : T → M) (pf : M → A → MigrationPlan)
        (st : CacheState T A M MigrationPlan) (res : PlanFlowResult T A M),
        planMigrationFlow key now rup iv an me pf st = .ok res →
        res.plan.recommendations.length ≤ MAX_RECOMMENDATIONS ∧
        mapGet res.state.planCache key = some ⟨res.plan, now⟩) ∧
    (∀ plan : MigrationPlan,
        (truncatePlan plan).recommendations.length ≤ MAX_RECOMMENDATIONS ∧
        (plan.recommendations.length > MAX_RECOMMENDATIONS →
          (truncatePlan plan).recommendations
              = plan.recommendations.take MAX_RECOMMENDATIONS ∧
          (truncatePlan plan).limitations
              = plan.limitations ++ [truncationNote])) := by
  constructor
  · intro T A M key now rup iv an me pf st res h
    unfold planMigrationFlow at h
    rcases ha : mapGet st.analysisCache key with _ | cached <;> rw [ha] at h
    · rcases hr : mapGet st.repoCache key with _ | tree <;> rw [hr] at h
      · rcases rup with _ | _
        · simp at h
        · simp only [if_true, Except.ok.injEq] at h
          subst h
          exact ⟨truncatePlan_length_le _, mapGet_mapSet_self _ _ _⟩
      · simp only [Except.ok.injEq] at h
        subst h
        exact ⟨truncatePlan_length_le _, mapGet_mapSet_self _ _ _⟩
    · simp only [Except.ok.injEq] at h
      subst h
      exact ⟨truncatePlan_length_le _, mapGet_mapSet_self _ _ _⟩
  · intro plan
    refine ⟨truncatePlan_length_le plan, fun hgt => ?_⟩
    unfold truncatePlan
    rw [if_pos hgt]
    exact ⟨rfl, rfl⟩

/-- A recommendation used to build an oversized plan. -/
def sampleRec : MigrationRecommendation :=
  ⟨"a.sol", "A", .performance, "x", "y", .medium⟩

/-- A generator output with 201 recommendations. -/
def bigPlan : MigrationPlan :=
  ⟨"o/r", List.replicate 201 sampleRec, [], [], []⟩

/-- The result of a plan request for `"o/r"` on empty caches whose generator
returns `bigPlan`. -/
def bigPlanFlowRes : PlanFlowResult Nat Nat Nat :=
  ⟨⟨[("o/r", 7)], [("o/r", ⟨8, 9, 0⟩)], [("o/r", ⟨truncatePlan bigPlan, 0⟩)]⟩,
   truncatePlan bigPlan, true, true⟩

set_option maxRecDepth 4000 in
/-- Witness for `plan_recommendations_truncated_to_cap` at a concrete plan
request whose generator returns 201 recommendations. -/
theorem plan_recommendations_truncated_to_cap_witness :
    planMigrationFlow "o/r" 0 true 7 (· + 1) (· + 2) (fun _ _ => bigPlan)
        ⟨[], [], []⟩ = .ok bigPlanFlowRes ∧
    bigPlanFlowRes.plan.recommendations.length ≤ MAX_RECOMMENDATIONS ∧
    mapGet bigPlanFlowRes.state.planCache "o/r"
      = some ⟨bigPlanFlowRes.plan, 0⟩ ∧
    (truncatePlan bigPlan).recommendations
      = bigPlan.recommendations.take MAX_RECOMMENDATIONS ∧
    (truncatePlan bigPlan).limitations = bigPlan.limitations ++ [truncationNote] := by
  have heq : planMigrationFlow "o/r" 0 true 7 (· + 1) (· + 2)
      (fun _ _ => bigPlan) ⟨[], [], []⟩ = .ok bigPlanFlowRes := by rfl
  have h1 := plan_recommendations_truncated_to_cap.1 "o/r" 0 true 7 (· + 1)
    (· + 2) (fun _ _ => bigPlan) ⟨[], [], []⟩ bigPlanFlowRes heq
  have h2 := (plan_recommendations_truncated_to_cap.2 bigPlan).2 (by decide)
  exact ⟨heq, h1.1, h1.2, h2.1, h2.2⟩

/-- **C9.** When the recommendation generator's text contains no parsable
JSON array — no `[...]` span at all, or one that `JSON.parse` rejects — the
plan stage does not throw: it yields exactly the one fallback
recommendation, whose `changeCategory` is `architecture`, whose
`confidenceLevel` is `low`, and whose rationale notes that response parsing
requires verification. -/
theorem unparsable_response_yields_single_fallback
    (parseArray : String → Option (List MigrationRecommendation))
    (text : String)
    (hfail : ∀ s, extractJsonArraySpan text = some s → parseArray s = none) :
    generateRecommendations parseArray text = [fallbackRecommendation] ∧
    (generateRecommendations parseArray text).length = 1 ∧
    fallbackRecommendation.changeCategory = .architecture ∧
    fallbackRecommendation.confidenceLevel = .low ∧
    fallbackRecommendation.rationale
      = "LLM analysis completed but response parsing requires verification" := by
  have hmain : generateRecommendations parseArray text
      = [fallbackRecommendation] := by
    unfold generateRecommendations
    rcases h : extractJsonArraySpan text with _ | s
    · rfl
    · simp [hfail s h]
  exact ⟨hmain, by rw [hmain]; rfl, rfl, rfl, rfl⟩

lemma transformFile_zero_confidence (filePath : String)
    (recs : List MigrationRecommendation) (orig : String)
    (tf : PerFileTransformation)
    (h : (transformFile filePath recs orig tf).appliedChanges.length = 0) :
    (transformFile filePath recs orig tf).confidenceScore = 0 := by
  simp only [transformFile] at h ⊢
  unfold calculateConfidenceScore
  rw [if_pos h]

lemma foldl_processFileStep_reports_zero
    (outcome : String → List MigrationRecommendation →
      Except String (String × PerFileTransformation)) :
    ∀ (entries : List (String × List MigrationRecommendation))
      (acc : TransformLoopAcc),
      (∀ fr ∈ acc.fileReports,
        fr.appliedChangesCount = 0 → fr.confidenceScore = 0) →
      ∀ fr ∈ (entries.foldl (processFileStep outcome) acc).fileReports,
        fr.appliedChangesCount = 0 → fr.confidenceScore = 0 := by
  intro entries
  induction entries with
  | nil => intro acc h; exact h
  | cons e es ih =>
      intro acc h
      refine ih _ ?_
      intro fr hfr
      unfold processFileStep at hfr
      rcases ho : outcome e.1 e.2 with err | q <;> rw [ho] at hfr
      · exact h fr hfr
      · simp only [List.mem_append, List.mem_singleton] at hfr
        rcases hfr with hold | hnew
        · exact h fr hold
        · subst hnew
          exact transformFile_zero_confidence e.1 e.2 q.1 q.2

/-- **C6, counterexample.** In a run with one modified file (confidence 0.9)
and one skipped file (confidence 0, zero applied changes), the code computes
an overall confidence of 0.45 — the zero-change file *is* counted in the
denominator — while the claimed mean over modified files only would be 0.9. -/
theorem overall_confidence_counts_unmodified_counterexample :
    twoFileReport.filesModified = 1 ∧
    (twoFileReport.fileReports.map fun f => (f.appliedChangesCount, f.confidenceScore))
      = [(1, 9 / 10), (0, 0)] ∧
    twoFileReport.summary.overallConfidence = 45 / 100 ∧
    specOverallConfidence twoFileReport = 9 / 10 ∧
    twoFileReport.summary.overallConfidence ≠ specOverallConfidence twoFileReport := by
  refine ⟨?_, ?_, ?_, ?_, ?_⟩ <;>
  · simp +decide only [twoFileReport, transformRepositoryPure,
      groupRecommendationsByFile, processFileStep, twoFilePlan, twoFileOutcome,
      transformFile, mkFileReport, calculateConfidenceScore, confidenceValue,
      jsRound2, jsRound, specOverallConfidence, List.foldl, List.enum,
      List.any, List.map, List.filter, List.length]
    try norm_num

/-- **C6, amended.** The overall confidence equals the mean of the
confidence scores of *all* successfully processed files' reports — files
with zero applied changes contribute a 0 score and are counted in the
denominator — rounded to two decimals (`Math.round(x*100)/100`), and is 0
when no files were modified. -/
theorem overall_confidence_mean_over_all_file_reports
    (repoName : String) (plan : MigrationPlan)
    (contracts : List SolidityContract)
    (outcome : String → List MigrationRecommendation →
      Except String (String × PerFileTransformation))
    (extractIP : String → List String) :
    ((transformRepositoryPure repoName plan contracts outcome extractIP).summary.overallConfidence
      = if 0 < (transformRepositoryPure repoName plan contracts outcome extractIP).filesModified then
          jsRound2
            (((transformRepositoryPure repoName plan contracts outcome extractIP).fileReports.foldl
                (fun s f => s + f.confidenceScore) 0) /
              ((transformRepositoryPure repoName plan contracts outcome extractIP).fileReports.length : ℚ))
        else 0) ∧
    ∀ fr ∈ (transformRepositoryPure repoName plan contracts outcome extractIP).fileReports,
      fr.appliedChangesCount = 0 → fr.confidenceScore = 0 :=
  ⟨rfl,
   foldl_processFileStep_reports_zero outcome
     (groupRecommendationsByFile plan.recommendations) ⟨0, 0, 0, 0, 0, [], [], []⟩
     (by intro fr hfr; exact absurd hfr (List.not_mem_nil fr))⟩

/-- Witness for `overall_confidence_mean_over_all_file_reports` at the
two-file scenario. -/
theorem overall_confidence_mean_over_all_file_reports_witness :
    twoFileReport.summary.overallConfidence
      = if 0 < twoFileReport.filesModified then
          jsRound2
            ((twoFileReport.fileReports.foldl (fun s f => s + f.confidenceScore) 0) /
              (twoFileReport.fileReports.length : ℚ))
        else 0 :=
  (overall_confidence_mean_over_all_file_reports "o/r" twoFilePlan []
    twoFileOutcome (fun _ => [])).1

lemma flagFold_spec {α : Type} (bad : α → Bool) (msg : α → String) :
    ∀ (xs : List α) (acc : Bool × List String),
      xs.foldl (flagStep bad msg) acc =
        (acc.1 && xs.all (fun x => !bad x), acc.2 ++ (xs.filter bad).map msg) := by
  intro xs
  induction xs with
  | nil => intro acc; simp
  | cons x xs ih =>
      intro acc
      rw [List.foldl_cons, ih]
      unfold flagStep
      rcases hb : bad x with _ | _ <;> simp [hb, Bool.and_assoc]

lemma nestedFlagFold_spec {β α : Type} (bad : β → α → Bool)
    (msg : β → α → String) (inner : β → List α) :
    ∀ (bs : List β) (acc : Bool × List String),
      nestedFlagFold bad msg inner bs acc =
        (acc.1 && bs.all (fun b => (inner b).all fun x => !bad b x),
         acc.2 ++ bs.flatMap fun b => ((inner b).filter (bad b)).map (msg b)) := by
  intro bs
  induction bs with
  | nil => intro acc; simp [nestedFlagFold]
  | cons b bs ih =>
      intro acc
      rw [nestedFlagFold, List.foldl_cons]
      rw [show List.foldl (fun a b => (inner b).foldl (flagStep (bad b) (msg b)) a)
            ((inner b).foldl (flagStep (bad b) (msg b)) acc) bs
          = nestedFlagFold bad msg inner bs
              ((inner b).foldl (flagStep (bad b) (msg b)) acc) from rfl]
      rw [ih, flagFold_spec]
      simp [Bool.and_assoc]

lemma validateCrossFileConsistency_spec
    (ti : List (String × List String)) (contracts : List SolidityContract) :
    validateCrossFileConsistency ti contracts =
      ⟨true,
       ti.all (fun fp => fp.2.all fun p => !brokenImport contracts fp.1 p),
       contracts.all (fun c => c.inherits.all fun par => !brokenParent contracts par),
       (ti.flatMap fun fp =>
          (fp.2.filter (brokenImport contracts fp.1)).map (importIssueMsg fp.1)) ++
         contracts.flatMap fun c =>
          (c.inherits.filter (brokenParent contracts)).map (parentIssueMsg c.name)⟩ := by
  simp only [validateCrossFileConsistency, nestedFlagFold_spec]
  simp

lemma rel_import_nonempty {p : String}
    (h : (jsStartsWith p "./" || jsStartsWith p "../") = true) :
    (p == "") = false := by
  rcases hb : p == "" with _ | _
  · rfl
  · have hp : p = "" := eq_of_beq hb
    subst hp
    exact absurd h (by decide)

/-- **C8.** When a transformed file retains an import of a relative path
(`./` or `../`) that, resolved against the importing file's directory,
matches no analyzed contract's file path and contains no external-package
marker `@`, the consistency report has `importsValid = false` and its issues
contain the string naming both the importing file and the unresolved path
(and the report is marked checked). -/
theorem unresolved_relative_import_flags_report
    (transformedImports : List (String × List String))
    (contracts : List SolidityContract) (f p : String) (paths : List String)
    (hfile : (f, paths) ∈ transformedImports) (hp : p ∈ paths)
    (hrel : (jsStartsWith p "./" || jsStartsWith p "../") = true)
    (hhttp : jsStartsWith p "http" = false)
    (hnores : fileExists contracts (resolveImport f p) = false)
    (hat : jsIncludes p "@" = false) :
    (validateCrossFileConsistency transformedImports contracts).importsValid = false ∧
    importIssueMsg f p ∈ (validateCrossFileConsistency transformedImports contracts).issues ∧
    (validateCrossFileConsistency transformedImports contracts).checked = true := by
  have hne : (p == "") = false := rel_import_nonempty hrel
  have hbr : brokenImport contracts f p = true := by
    unfold brokenImport
    rw [hne, hhttp, hnores, hat]
    rfl
  rw [validateCrossFileConsistency_spec]
  refine ⟨?_, ?_, rfl⟩
  · apply Bool.eq_false_iff.mpr
    intro hall
    rw [List.all_eq_true] at hall
    have h1 := hall (f, paths) hfile
    rw [List.all_eq_true] at h1
    have h2 := h1 p hp
    rw [hbr] at h2
    exact absurd h2 (by decide)
  · apply List.mem_append_left
    rw [List.mem_flatMap]
    refine ⟨(f, paths), hfile, ?_⟩
    rw [List.mem_map]
    exact ⟨p, List.mem_filter.mpr ⟨hp, hbr⟩, rfl⟩

/-- The analyzed contract set of the broken-import scenario. -/
def missingImportContracts : List SolidityContract :=
  [⟨"Token", .contract, "contracts/Token.sol", [], [], [], [], false⟩]

/-- Witness for `unresolved_relative_import_flags_report`: the transformed
`contracts/Token.sol` retains `import "./Missing.sol"`, which resolves to
`contracts/Missing.sol` — no analyzed contract's path. -/
theorem unresolved_relative_import_flags_report_witness :
    (validateCrossFileConsistency [("contracts/Token.sol", ["./Missing.sol"])]
        missingImportContracts).importsValid = false ∧
    importIssueMsg "contracts/Token.sol" "./Missing.sol" ∈
      (validateCrossFileConsistency [("contracts/Token.sol", ["./Missing.sol"])]
        missingImportContracts).issues ∧
    (validateCrossFileConsistency [("contracts/Token.sol", ["./Missing.sol"])]
        missingImportContracts).checked = true :=
  unresolved_relative_import_flags_report
    [("contracts/Token.sol", ["./Missing.sol"])] missingImportContracts
    "contracts/Token.sol" "./Missing.sol" ["./Missing.sol"]
    (List.mem_singleton_self _) (List.mem_singleton_self _)
    (by decide) (by decide) (by decide) (by decide)

/-- Witness for `unparsable_response_yields_single_fallback` on a response
whose bracketed span is not valid JSON (the parser rejects every span). -/
theorem unparsable_response_yields_single_fallback_witness :
    generateRecommendations (fun _ => none) "Sorry, [this is not JSON]."
        = [fallbackRecommendation] ∧
    (generateRecommendations (fun _ => none) "Sorry, [this is not JSON].").length = 1 ∧
    fallbackRecommendation.changeCategory = .architecture ∧
    fallbackRecommendation.confidenceLevel = .low ∧
    fallbackRecommendation.rationale
      = "LLM analysis completed but response parsing requires verification" :=
  unparsable_response_yields_single_fallback (fun _ => none)
    "Sorry, [this is not JSON]." (fun _ _ => rfl)

end Port2Monad


